import Mathlib

/-!
Verification of the disk-usage viewer (`src/main.go`).

The development shallowly embeds the program's core logic:
* `parseDfOutput` / `splitDfLine` — parsing of `df -k` output (main.go:100-149),
* `formatSize` — human-readable size formatting (main.go:152-172),
* the usage-bar computation and per-record rendering of `View` (main.go:56-83).

Strings are modelled as `List Char`.  Go's 64-bit integers are modelled as
`Int` with explicit two's-complement wrap-around (`wrap64`) at the one place
the program multiplies (`size * 1024`).  The `float64` arithmetic of the bar
computation and of `formatSize` is modelled exactly by an executable emulation
of IEEE-754 binary64: values are dyadic rationals `m * 2^e`, and every
operation re-rounds the exact result to 53 significant bits with
round-to-nearest, ties-to-even (the inputs of this program stay far inside
the normal range, so overflow and subnormals never arise).
-/

/-- Characters accepted by Go's `unicode.IsSpace` (the White_Space property),
used by `strings.TrimSpace`. -/
def goIsSpace (c : Char) : Bool :=
  let n := c.toNat
  (9 ≤ n && n ≤ 13) || n == 32 || n == 133 || n == 160 || n == 0x1680 ||
  (0x2000 ≤ n && n ≤ 0x200A) || n == 0x2028 || n == 0x2029 || n == 0x202F ||
  n == 0x205F || n == 0x3000

/-- Characters matched by the RE2 class `\s` (so by the `\s+` pattern of
`splitDfLine` in main.go:147): tab, newline, form feed, carriage return,
space.  Note RE2's `\s` does not include vertical tab. -/
def reIsSpace (c : Char) : Bool :=
  let n := c.toNat
  n == 9 || n == 10 || n == 12 || n == 13 || n == 32

/-- Go `strings.TrimSpace`: drop leading and trailing white space. -/
def trimSpace (s : List Char) : List Char :=
  ((s.dropWhile goIsSpace).reverse.dropWhile goIsSpace).reverse

/-- Go `strings.Split(s, "\n")` (main.go:101). -/
def splitLines : List Char → List (List Char)
  | [] => [[]]
  | c :: rest =>
    if c = '\n' then [] :: splitLines rest
    else
      match splitLines rest with
      | [] => [[c]]
      | f :: fs => (c :: f) :: fs

/-- Worker for `splitDfLine`: split on maximal runs of `\s` characters, as
`regexp.MustCompile(s+).Split(line, -1)` does.  The fuel argument (always
instantiated with the length of the list, which bounds the recursion depth)
keeps the recursion structural so that the function evaluates by `decide`. -/
def splitWsAux : Nat → List Char → List (List Char)
  | _, [] => [[]]
  | 0, l => [l]
  | fuel + 1, c :: rest =>
    if reIsSpace c then [] :: splitWsAux fuel (rest.dropWhile reIsSpace)
    else
      match splitWsAux fuel rest with
      | [] => [[c]]
      | f :: fs => (c :: f) :: fs

/-- Go `splitDfLine` (main.go:145-149): split a df output line into fields on
runs of one-or-more white-space characters. -/
def splitDfLine (line : List Char) : List (List Char) :=
  splitWsAux line.length line

/-- Model of Go `strings.HasPrefix`. -/
def startsWith : List Char → List Char → Bool
  | [], _ => true
  | _ :: _, [] => false
  | p :: ps, c :: cs => p == c && startsWith ps cs

/-- A non-empty string of decimal digits: the digit part accepted by
`strconv.ParseInt(s, 10, 64)`. -/
def digitsOK (l : List Char) : Bool :=
  !l.isEmpty && l.all (fun c => 48 ≤ c.toNat && c.toNat ≤ 57)

/-- Numeric value of a string of decimal digits. -/
def digitsVal (l : List Char) : Nat :=
  l.foldl (fun a c => a * 10 + (c.toNat - 48)) 0

/-- Positive clamp of `strconv.ParseInt(_, 10, 64)`: values above
`math.MaxInt64` are reported as `math.MaxInt64` (with an `ErrRange` error that
the program discards). -/
def posClamp (n : Nat) : Int :=
  if n ≤ 9223372036854775807 then (n : Int) else 9223372036854775807

/-- Negative clamp of `strconv.ParseInt(_, 10, 64)`: values below
`math.MinInt64` are reported as `math.MinInt64`. -/
def negClamp (n : Nat) : Int :=
  if n ≤ 9223372036854775808 then -(n : Int) else -9223372036854775808

/-- Go `strconv.ParseInt(s, 10, 64)` with the error ignored, as the program
does (`size, _ := strconv.ParseInt(...)`, main.go:123-129): an optional sign
followed by decimal digits; a syntax error yields 0, an out-of-range value
yields the clamped 64-bit extreme.  `strconv.Atoi` has the same semantics
(`int` is 64 bits wide on the targets of this program). -/
def goParseInt64 : List Char → Int
  | [] => 0
  | c :: rest =>
    if c = '+' then (if digitsOK rest then posClamp (digitsVal rest) else 0)
    else if c = '-' then (if digitsOK rest then negClamp (digitsVal rest) else 0)
    else if digitsOK (c :: rest) then posClamp (digitsVal (c :: rest)) else 0

/-- Whether `strconv.ParseInt(s, 10, 64)` accepts `s` syntactically (it may
still be out of range). -/
def intSyntaxOK : List Char → Bool
  | [] => false
  | c :: rest =>
    if c = '+' then digitsOK rest
    else if c = '-' then digitsOK rest
    else digitsOK (c :: rest)

/-- Two's-complement wrap-around of 64-bit signed multiplication results:
Go's `int64` arithmetic wraps (main.go:133, `size * 1024`). -/
def wrap64 (x : Int) : Int :=
  (x + 9223372036854775808) % 18446744073709551616 - 9223372036854775808

/-- Go `strings.TrimSuffix(s, "%")` (main.go:128): remove one trailing `%`
if present. -/
def trimPctSuffix (s : List Char) : List Char :=
  if s.getLast? = some '%' then s.dropLast else s

/-- `DiskInfo` (main.go:15-22).  `Size`, `Used`, `Available` are byte counts
(`int64`), `UsePercent` an `int`, both modelled as `Int`. -/
structure DiskInfo where
  Filesystem : List Char
  Size : Int
  Used : Int
  Available : Int
  UsePercent : Int
  MountPoint : List Char
deriving DecidableEq, Repr

/-- The record built from the fields of one accepted line
(main.go:122-138). -/
def mkRecord (fields : List (List Char)) : DiskInfo :=
  { Filesystem := fields.getD 0 []
    Size := wrap64 (goParseInt64 (fields.getD 1 []) * 1024)
    Used := wrap64 (goParseInt64 (fields.getD 2 []) * 1024)
    Available := wrap64 (goParseInt64 (fields.getD 3 []) * 1024)
    UsePercent := goParseInt64 (trimPctSuffix (fields.getD 4 []))
    MountPoint := fields.getD 5 [] }

/-- The skip condition of main.go:112:
`!strings.HasPrefix(line, "/") && !strings.HasPrefix(line, "tmpfs") &&
!strings.HasPrefix(line, "devtmpfs")`. -/
def skipByType (line : List Char) : Bool :=
  !startsWith "/".data line && !startsWith "tmpfs".data line &&
    !startsWith "devtmpfs".data line

/-- Processing of a single (post-header) line of df output: the body of the
loop of `parseDfOutput` (main.go:105-139), returning `none` when the line is
skipped. -/
def parseDfLine (raw : List Char) : Option DiskInfo :=
  if trimSpace raw = [] then none
  else if skipByType (trimSpace raw) then none
  else if (splitDfLine (trimSpace raw)).length < 6 then none
  else some (mkRecord (splitDfLine (trimSpace raw)))

/-- Go `parseDfOutput` (main.go:100-142): split into lines, skip the header
line, and accumulate a record per accepted line in source order. -/
def parseDfOutput (output : List Char) : List DiskInfo :=
  ((splitLines output).drop 1).foldl
    (fun acc l =>
      match parseDfLine l with
      | some di => acc ++ [di]
      | none => acc) []

/-- `parseDfOutput` applied to a Lean string literal. -/
def parseDfOutputS (s : String) : List DiskInfo :=
  parseDfOutput s.data

/-! ### Exact emulation of the program's `float64` arithmetic -/

/-- Floor of the base-2 logarithm, by structural recursion on a fuel argument
(the fuel is always instantiated with `n` itself, which bounds the number of
halvings, so the function evaluates by `decide`). -/
def nlog2Aux : Nat → Nat → Nat
  | 0, _ => 0
  | fuel + 1, n => if n ≤ 1 then 0 else nlog2Aux fuel (n / 2) + 1

/-- Floor of the base-2 logarithm of a positive natural number. -/
def nlog2 (n : Nat) : Nat := nlog2Aux n n

/-- Floor of `(a / b) * 2^k` for natural `a`, `b` and integer `k`. -/
def scaledFloor (a b : Nat) (k : Int) : Nat :=
  (a * 2 ^ k.toNat) / (b * 2 ^ (-k).toNat)

/-- Round the positive rational `a / b` to 53 significant bits with
round-to-nearest, ties-to-even: the IEEE-754 binary64 rounding performed by
every `float64` operation the program executes (all of them stay inside the
normal range).  Returns `(m, e)` with value `m * 2^e`; for `a ≠ 0` the
mantissa `m` lies in `[2^52, 2^53]`. -/
def roundQ53 (a b : Nat) : Nat × Int :=
  if a = 0 then (0, 0)
  else
    let d : Int := (nlog2 a : Int) - (nlog2 b : Int)
    let k0 : Int := 53 - d
    let k : Int := if 2 ^ 53 ≤ scaledFloor a b k0 then k0 - 1 else k0
    let A := a * 2 ^ k.toNat
    let B := b * 2 ^ (-k).toNat
    let n := A / B
    let r := A % B
    let m :=
      if B < 2 * r then n + 1
      else if 2 * r < B then n
      else if n % 2 = 0 then n else n + 1
    (m, -k)

/-- A `float64` value, represented exactly as a signed dyadic rational
`m * 2^e` (first component `m`, second `e`). -/
def F64 : Type := Int × Int
deriving DecidableEq, Repr

/-- Go conversion `float64(n)` of a 64-bit integer: round to nearest,
ties to even. -/
def dOfInt (p : Int) : F64 :=
  let me := roundQ53 p.natAbs 1
  ((if p < 0 then -(me.1 : Int) else (me.1 : Int)), me.2)

/-- `float64` division, correctly rounded. -/
def dDiv (x y : F64) : F64 :=
  let me := roundQ53 x.1.natAbs y.1.natAbs
  ((if (x.1 < 0 ∧ 0 ≤ y.1) ∨ (0 ≤ x.1 ∧ y.1 < 0) then -(me.1 : Int) else (me.1 : Int)),
    me.2 + x.2 - y.2)

/-- `float64` multiplication, correctly rounded. -/
def dMul (x y : F64) : F64 :=
  let me := roundQ53 (x.1 * y.1).natAbs 1
  ((if x.1 * y.1 < 0 then -(me.1 : Int) else (me.1 : Int)), me.2 + x.2 + y.2)

/-- Go conversion `int(x)` of a `float64`: truncation toward zero (the
program only applies it to values far inside the `int` range). -/
def dTruncInt (x : F64) : Int :=
  let a := x.1.natAbs
  let v : Nat := if 0 ≤ x.2 then a * 2 ^ x.2.toNat else a / 2 ^ (-x.2).toNat
  if x.1 < 0 then -(v : Int) else (v : Int)

/-- The used-cell count of the usage bar (main.go:66):
`int(float64(di.UsePercent) / 100.0 * float64(barWidth))` with
`barWidth = 30`, computed in `float64`. -/
def usedCharsGo (p : Int) : Int :=
  dTruncInt (dMul (dDiv (dOfInt p) (dOfInt 100)) (dOfInt 30))

/-- The available-cell count of the usage bar (main.go:67):
`barWidth - usedChars`. -/
def availCharsGo (p : Int) : Int := 30 - usedCharsGo p

/-! ### `formatSize` (main.go:152-172) -/

/-- The decimal digit characters. -/
def digitCh : Nat → Char
  | 0 => '0' | 1 => '1' | 2 => '2' | 3 => '3' | 4 => '4'
  | 5 => '5' | 6 => '6' | 7 => '7' | 8 => '8' | _ => '9'

/-- Decimal digits of a natural number, most significant first (fuel-driven
recursion; the fuel `n + 1` always suffices). -/
def natDigitsAux : Nat → Nat → List Char
  | 0, _ => []
  | fuel + 1, n =>
    if n < 10 then [digitCh n] else natDigitsAux fuel (n / 10) ++ [digitCh (n % 10)]

/-- Decimal numeral of a natural number. -/
def natDigits (n : Nat) : List Char := natDigitsAux (n + 1) n

/-- Go `fmt.Sprintf("%d", n)` for a 64-bit integer. -/
def intDecimal (n : Int) : List Char :=
  if n < 0 then '-' :: natDigits n.natAbs else natDigits n.toNat

/-- Two-digit, zero-padded numeral of `k < 100`. -/
def pad2 (k : Nat) : List Char := [digitCh (k / 10 % 10), digitCh (k % 10)]

/-- Hundredfold of the `float64` value `a * 2^e` (`a ≥ 0`), rounded to the
nearest integer with ties-to-even: the decimal rounding Go's `strconv`
performs for `%.2f`. -/
def round2dec (a : Nat) (e : Int) : Nat :=
  if 0 ≤ e then a * 100 * 2 ^ e.toNat
  else
    let N := a * 100
    let D := 2 ^ (-e).toNat
    let q := N / D
    let r := N % D
    if D < 2 * r then q + 1
    else if 2 * r < D then q
    else if q % 2 = 0 then q else q + 1

/-- Go `fmt.Sprintf("%.2f", v)` for a non-negative `float64` value
`a * 2^e`: the exact binary value rounded to two decimal places
(round-to-nearest, ties-to-even), rendered as digits, point, two digits. -/
def fmtF2Core (a : Nat) (e : Int) : List Char :=
  natDigits (round2dec a e / 100) ++ '.' :: pad2 (round2dec a e % 100)

/-- Go `fmt.Sprintf("%.2f", v)` for a `float64` value. -/
def fmtF2 (x : F64) : List Char :=
  if x.1 < 0 then '-' :: fmtF2Core x.1.natAbs x.2 else fmtF2Core x.1.natAbs x.2

/-- Go `formatSize` (main.go:152-172): pick the largest unit whose threshold
(an exact power of 1024, compared in `int64`) is at or below `size`, divide in
`float64` and render with two decimals; below 1 KB render the integer with a
`" B"` suffix. -/
def formatSize (size : Int) : List Char :=
  if 1099511627776 ≤ size then
    fmtF2 (dDiv (dOfInt size) (dOfInt 1099511627776)) ++ " TB".data
  else if 1073741824 ≤ size then
    fmtF2 (dDiv (dOfInt size) (dOfInt 1073741824)) ++ " GB".data
  else if 1048576 ≤ size then
    fmtF2 (dDiv (dOfInt size) (dOfInt 1048576)) ++ " MB".data
  else if 1024 ≤ size then
    fmtF2 (dDiv (dOfInt size) (dOfInt 1024)) ++ " KB".data
  else intDecimal size ++ " B".data

/-! ### The per-record rendering of `View` (main.go:56-83)

Color styling (`lipgloss`) is a named external collaborator (spec §6): its
`Render` is modelled as the identity on the rendered text. -/

/-- Go `strings.Repeat(string(c), n)`: panics on a negative count, modelled
as `none`. -/
def goRepeat (c : Char) (n : Int) : Option (List Char) :=
  if n < 0 then none else some (List.replicate n.toNat c)

/-- The display filter of main.go:58:
`strings.HasPrefix(di.Filesystem, "/dev") || strings.HasPrefix(di.Filesystem, "/")`. -/
def displayEligible (di : DiskInfo) : Bool :=
  startsWith "/dev".data di.Filesystem || startsWith "/".data di.Filesystem

/-- The successive segments of one device-info block (main.go:73-79), given
the two rendered bar segments. -/
def blockParts (di : DiskInfo) (usedBar availBar : List Char) : List (List Char) :=
  [di.Filesystem, "\n├─ Size: ".data, formatSize di.Size, "\n├─ Used: ".data,
   formatSize di.Used, "\n├─ Available: ".data, formatSize di.Available,
   "\n├─ Usage: ".data, intDecimal di.UsePercent, "%\n├─ Mounted on: ".data,
   di.MountPoint, "\n└─ [".data, usedBar ++ availBar, "]\n\n".data]

/-- One device-info block (main.go:59-79): bar segments of
`usedCharsGo di.UsePercent` filled cells and `30 - usedCharsGo di.UsePercent`
shaded cells, followed by the textual fields; `none` when `strings.Repeat`
panics on a negative count. -/
def deviceInfoBlock (di : DiskInfo) : Option (List Char) :=
  match goRepeat '█' (usedCharsGo di.UsePercent),
      goRepeat '░' (30 - usedCharsGo di.UsePercent) with
  | some usedBar, some availBar => some (blockParts di usedBar availBar).flatten
  | _, _ => none

/-- The block sequence produced by the rendering loop of `View`
(main.go:56-83): one block per record passing the display filter, in order;
`none` when rendering panics. -/
def viewBlocks : List DiskInfo → Option (List (List Char))
  | [] => some []
  | di :: rest =>
    if displayEligible di then
      (deviceInfoBlock di).bind fun b => (viewBlocks rest).map fun bs => b :: bs
    else viewBlocks rest

/-- A string that renders a value "to exactly two decimal places": a
non-empty run of decimal digits, a point, and exactly two decimal digits. -/
def twoDecForm (v : List Char) : Prop :=
  ∃ ds d1 d2, v = ds ++ '.' :: [d1, d2] ∧ ds ≠ [] ∧
    (∀ c ∈ ds, 48 ≤ c.toNat ∧ c.toNat ≤ 57) ∧
    (48 ≤ d1.toNat ∧ d1.toNat ≤ 57) ∧ (48 ≤ d2.toNat ∧ d2.toNat ≤ 57)

/-- C1: parsing a header line followed by the single well-formed row
`/dev/sda1 1048576 524288 524288 50% /` yields exactly one record with
filesystem `/dev/sda1`, sizeBytes 1073741824, usedBytes 536870912,
availableBytes 536870912, usePercent 50 and mountPoint `/`. -/
theorem claim1_single_row_parse :
    parseDfOutputS
        "Filesystem 1K-blocks Used Available Use% Mounted on\n/dev/sda1 1048576 524288 524288 50% /" =
      [{ Filesystem := "/dev/sda1".data, Size := 1073741824, Used := 536870912,
         Available := 536870912, UsePercent := 50, MountPoint := "/".data }] := by
  decide

/-! ### Helper lemmas -/

theorem parseDfOutput_foldl (ls : List (List Char)) (acc : List DiskInfo) :
    ls.foldl
      (fun acc l =>
        match parseDfLine l with
        | some di => acc ++ [di]
        | none => acc) acc = acc ++ ls.filterMap parseDfLine := by
  induction ls generalizing acc with
  | nil => simp
  | cons l ls ih =>
    cases h : parseDfLine l <;> simp [List.filterMap_cons, h, ih]

theorem parseDfOutput_filterMap (output : List Char) :
    parseDfOutput output = ((splitLines output).drop 1).filterMap parseDfLine := by
  unfold parseDfOutput
  simpa using parseDfOutput_foldl ((splitLines output).drop 1) []

theorem skipByType_nil : skipByType [] = true := by decide

theorem trim_ne_nil_of_not_skip {l : List Char} (h : skipByType l = false) : l ≠ [] := by
  intro e
  rw [e, skipByType_nil] at h
  exact Bool.noConfusion h

theorem parseDfLine_none_of_skip {raw : List Char} (h1 : trimSpace raw ≠ [])
    (h2 : skipByType (trimSpace raw) = true) : parseDfLine raw = none := by
  unfold parseDfLine
  rw [if_neg h1, if_pos h2]

theorem parseDfLine_none_short {raw : List Char}
    (h : skipByType (trimSpace raw) = false)
    (hlen : (splitDfLine (trimSpace raw)).length < 6) : parseDfLine raw = none := by
  unfold parseDfLine
  rw [if_neg (trim_ne_nil_of_not_skip h), if_neg (by simp [h]), if_pos hlen]

theorem parseDfLine_accept {raw : List Char}
    (h : skipByType (trimSpace raw) = false)
    (hlen : ¬ (splitDfLine (trimSpace raw)).length < 6) :
    parseDfLine raw = some (mkRecord (splitDfLine (trimSpace raw))) := by
  unfold parseDfLine
  rw [if_neg (trim_ne_nil_of_not_skip h), if_neg (by simp [h]), if_neg hlen]

theorem parseDfLine_some_inv {raw : List Char} {di : DiskInfo}
    (h : parseDfLine raw = some di) :
    skipByType (trimSpace raw) = false ∧ ¬ (splitDfLine (trimSpace raw)).length < 6 ∧
      di = mkRecord (splitDfLine (trimSpace raw)) := by
  unfold parseDfLine at h
  split at h
  · exact absurd h (by simp)
  · split at h
    · exact absurd h (by simp)
    · split at h
      · exact absurd h (by simp)
      · rename_i h1 h2 h3
        refine ⟨by simpa using h2, h3, ?_⟩
        exact (Option.some_inj.mp h).symm

theorem goParseInt64_eq_zero {s : List Char} (h : intSyntaxOK s = false) :
    goParseInt64 s = 0 := by
  cases s with
  | nil => rfl
  | cons c rest =>
    simp only [intSyntaxOK] at h
    simp only [goParseInt64]
    split_ifs at h ⊢ <;> simp_all

theorem wrap64_id {x : Int} (h0 : 0 ≤ x) (h1 : x < 9223372036854775808) :
    wrap64 x = x := by
  unfold wrap64
  omega

theorem wrap64_zero : wrap64 0 = 0 := by decide

set_option maxRecDepth 40000 in
theorem usedChars_ball :
    ∀ n : Nat, n ≤ 100 → usedCharsGo (n : Int) = ((n * 30 / 100 : Nat) : Int) := by
  decide

theorem usedChars_bounds {p : Int} (h0 : 0 ≤ p) (h1 : p ≤ 100) :
    0 ≤ usedCharsGo p ∧ usedCharsGo p ≤ 30 := by
  obtain ⟨n, rfl⟩ : ∃ n : Nat, p = (n : Int) := ⟨p.toNat, (Int.toNat_of_nonneg h0).symm⟩
  have hn : n ≤ 100 := by exact_mod_cast h1
  rw [usedChars_ball n hn]
  have hq : n * 30 / 100 ≤ 30 := by omega
  exact ⟨Int.ofNat_nonneg _, by exact_mod_cast hq⟩

theorem digitCh_range (d : Nat) : 48 ≤ (digitCh d).toNat ∧ (digitCh d).toNat ≤ 57 := by
  unfold digitCh
  split <;> decide

theorem natDigitsAux_ne_nil (fuel n : Nat) : natDigitsAux (fuel + 1) n ≠ [] := by
  unfold natDigitsAux
  split <;> simp

theorem natDigits_ne_nil (n : Nat) : natDigits n ≠ [] := natDigitsAux_ne_nil n n

theorem natDigitsAux_digits :
    ∀ fuel n : Nat, ∀ c ∈ natDigitsAux fuel n, 48 ≤ c.toNat ∧ c.toNat ≤ 57 := by
  intro fuel
  induction fuel with
  | zero => intro n c hc; simp [natDigitsAux] at hc
  | succ fuel ih =>
    intro n c hc
    unfold natDigitsAux at hc
    split at hc
    · rw [List.mem_singleton] at hc
      subst hc
      exact digitCh_range _
    · rcases List.mem_append.mp hc with h | h
      · exact ih _ _ h
      · rw [List.mem_singleton] at h
        subst h
        exact digitCh_range _

theorem natDigits_digits (n : Nat) : ∀ c ∈ natDigits n, 48 ≤ c.toNat ∧ c.toNat ≤ 57 :=
  natDigitsAux_digits (n + 1) n

theorem twoDec_fmtF2Core (a : Nat) (e : Int) : twoDecForm (fmtF2Core a e) :=
  ⟨natDigits (round2dec a e / 100), digitCh (round2dec a e % 100 / 10 % 10),
    digitCh (round2dec a e % 100 % 10), rfl, natDigits_ne_nil _, natDigits_digits _,
    digitCh_range _, digitCh_range _⟩

theorem fmtF2_of_nonneg {x : F64} (h : 0 ≤ x.1) : fmtF2 x = fmtF2Core x.1.natAbs x.2 := by
  unfold fmtF2
  rw [if_neg (not_lt.mpr h)]

theorem dOfInt_fst_nonneg {p : Int} (h : 0 ≤ p) : 0 ≤ (dOfInt p).1 := by
  unfold dOfInt
  simp only
  rw [if_neg (not_lt.mpr h)]
  exact Int.ofNat_nonneg _

theorem dDiv_fst_nonneg {x y : F64} (hx : 0 ≤ x.1) (hy : 0 ≤ y.1) : 0 ≤ (dDiv x y).1 := by
  unfold dDiv
  simp only
  rw [if_neg]
  · exact Int.ofNat_nonneg _
  · rintro (⟨h1, -⟩ | ⟨-, h2⟩)
    · omega
    · omega

theorem startsWith_cons (p c : Char) (ps cs : List Char) :
    startsWith (p :: ps) (c :: cs) = (p == c && startsWith ps cs) := rfl

theorem startsWith_slash_of_dev {l : List Char}
    (h : startsWith "/dev".data l = true) : startsWith "/".data l = true := by
  cases l with
  | nil => exact absurd h (by decide)
  | cons c cs =>
    have hd : ('/' == c) = true := by
      have h' : ('/' == c && startsWith "dev".data cs) = true := h
      exact (Bool.and_eq_true _ _ |>.mp h').1
    show ('/' == c && startsWith [] cs) = true
    rw [hd]
    rfl

theorem displayEligible_eq (di : DiskInfo) :
    displayEligible di = startsWith "/".data di.Filesystem := by
  unfold displayEligible
  cases h : startsWith "/dev".data di.Filesystem with
  | false => simp
  | true => simp [startsWith_slash_of_dev h]

/-! ### Claims -/

/-- C5: a non-empty trimmed line after the header that starts with none of
the prefixes `/`, `tmpfs`, `devtmpfs` contributes no record, and this prefix
test is the only filesystem-type filter: the output is exactly the
per-line filter-map over the post-header lines, and any line passing the
prefix test with at least 6 fields yields a record. -/
theorem claim5_prefix_filter :
    (∀ output : List Char,
      parseDfOutput output = ((splitLines output).drop 1).filterMap parseDfLine) ∧
    (∀ raw : List Char, trimSpace raw ≠ [] →
      startsWith "/".data (trimSpace raw) = false →
      startsWith "tmpfs".data (trimSpace raw) = false →
      startsWith "devtmpfs".data (trimSpace raw) = false →
      parseDfLine raw = none) ∧
    (∀ raw : List Char, skipByType (trimSpace raw) = false →
      ¬ (splitDfLine (trimSpace raw)).length < 6 →
      parseDfLine raw = some (mkRecord (splitDfLine (trimSpace raw)))) := by
  refine ⟨parseDfOutput_filterMap, ?_, fun raw h hl => parseDfLine_accept h hl⟩
  intro raw hne h1 h2 h3
  exact parseDfLine_none_of_skip hne (by simp [skipByType, h1, h2, h3])

/-- Witness for C5: the `overlay` row is dropped, while a `/`-prefixed row
with six fields yields its record. -/
theorem claim5_prefix_filter_witness :
    parseDfLine "overlay 1 2 3 4% /x".data = none ∧
    parseDfLine "/dev/sda1 1 2 3 4% /x".data =
      some (mkRecord (splitDfLine (trimSpace "/dev/sda1 1 2 3 4% /x".data))) :=
  ⟨claim5_prefix_filter.2.1 _ (by decide) (by decide) (by decide) (by decide),
    claim5_prefix_filter.2.2 _ (by decide) (by decide)⟩

/-- C6: a line passing the prefix filter but splitting into fewer than six
fields is silently dropped: no record, no error value, and (concretely) a
four-token `/`-row leaves the output sequence empty. -/
theorem claim6_short_line_dropped :
    (∀ raw : List Char, skipByType (trimSpace raw) = false →
      (splitDfLine (trimSpace raw)).length < 6 →
      parseDfLine raw = none) ∧
    parseDfOutputS
        "Filesystem 1K-blocks Used Available Use% Mounted on\n/dev/sda1 100 50 50" =
      [] := by
  exact ⟨fun raw h hl => parseDfLine_none_short h hl, by decide⟩

/-- Witness for C6: a four-token row starting with `/` is dropped. -/
theorem claim6_short_line_dropped_witness :
    parseDfLine "/a b c d".data = none :=
  claim6_short_line_dropped.1 _ (by decide) (by decide)

/-- Counterexample to C7 as stated: the size token
`99999999999999999999` exceeds `math.MaxInt64`, so `strconv.ParseInt` fails
with a range error — yet the emitted record's Size is
`wrap64(MaxInt64 * 1024) = -1024`, not 0. -/
theorem claim7_counterexample :
    (9223372036854775807 : Nat) < digitsVal "99999999999999999999".data ∧
    parseDfOutputS
        "Filesystem 1K-blocks Used Available Use% Mounted on\n/dev/sda1 99999999999999999999 1 1 1% /" =
      [{ Filesystem := "/dev/sda1".data, Size := -1024, Used := 1024,
         Available := 1024, UsePercent := 1, MountPoint := "/".data }] ∧
    (-1024 : Int) ≠ 0 := by
  exact ⟨by decide, by decide, by decide⟩

/-- C7 (amended): on an otherwise eligible line, a size/used/available or
percent token that fails to parse for a syntax error yields value zero for
that field, and the line still emits a record; tokens failing only the
64-bit range check instead yield the clamped extreme (times 1024, with
wrap-around), per the counterexample. -/
theorem claim7_amended_syntax_zero :
    ∀ raw : List Char, skipByType (trimSpace raw) = false →
      ¬ (splitDfLine (trimSpace raw)).length < 6 →
      ∃ di, parseDfLine raw = some di ∧
        (intSyntaxOK ((splitDfLine (trimSpace raw)).getD 1 []) = false → di.Size = 0) ∧
        (intSyntaxOK ((splitDfLine (trimSpace raw)).getD 2 []) = false → di.Used = 0) ∧
        (intSyntaxOK ((splitDfLine (trimSpace raw)).getD 3 []) = false →
          di.Available = 0) ∧
        (intSyntaxOK (trimPctSuffix ((splitDfLine (trimSpace raw)).getD 4 [])) = false →
          di.UsePercent = 0) := by
  intro raw h hl
  refine ⟨mkRecord (splitDfLine (trimSpace raw)), parseDfLine_accept h hl, ?_, ?_, ?_, ?_⟩
  · intro hb
    show wrap64 (goParseInt64 _ * 1024) = 0
    rw [goParseInt64_eq_zero hb]
    decide
  · intro hb
    show wrap64 (goParseInt64 _ * 1024) = 0
    rw [goParseInt64_eq_zero hb]
    decide
  · intro hb
    show wrap64 (goParseInt64 _ * 1024) = 0
    rw [goParseInt64_eq_zero hb]
    decide
  · intro hb
    exact goParseInt64_eq_zero hb

/-- Witness for amended C7: a row whose four numeric tokens are all
syntactically invalid still yields a record, with all four fields zero. -/
theorem claim7_amended_syntax_zero_witness :
    ∃ di, parseDfLine "/dev/sda1 abc def ghi jk% /".data = some di ∧
      (intSyntaxOK ((splitDfLine (trimSpace "/dev/sda1 abc def ghi jk% /".data)).getD 1 []) = false →
        di.Size = 0) ∧
      (intSyntaxOK ((splitDfLine (trimSpace "/dev/sda1 abc def ghi jk% /".data)).getD 2 []) = false →
        di.Used = 0) ∧
      (intSyntaxOK ((splitDfLine (trimSpace "/dev/sda1 abc def ghi jk% /".data)).getD 3 []) = false →
        di.Available = 0) ∧
      (intSyntaxOK (trimPctSuffix ((splitDfLine (trimSpace "/dev/sda1 abc def ghi jk% /".data)).getD 4 [])) = false →
        di.UsePercent = 0) :=
  claim7_amended_syntax_zero _ (by decide) (by decide)

/-- Counterexample to C8 as stated: a row whose size token is the negative
numeral `-5` produces a record with Size `-5120 < 0`. -/
theorem claim8_counterexample :
    parseDfOutputS
        "Filesystem 1K-blocks Used Available Use% Mounted on\n/dev/sda1 -5 1 1 1% /" =
      [{ Filesystem := "/dev/sda1".data, Size := -5120, Used := 1024,
         Available := 1024, UsePercent := 1, MountPoint := "/".data }] ∧
    (-5120 : Int) < 0 := by
  exact ⟨by decide, by decide⟩

/-- C8 (amended): a record's Size/Used/Available is non-negative whenever
the corresponding token's parsed KB value is non-negative and at most
`(2^63 - 1) / 1024 = 2^53 - 1` (so that the KB-to-byte conversion does not
overflow `int64`). -/
theorem claim8_amended_nonneg :
    ∀ raw : List Char, ∀ di : DiskInfo, parseDfLine raw = some di →
      (0 ≤ goParseInt64 ((splitDfLine (trimSpace raw)).getD 1 []) →
        goParseInt64 ((splitDfLine (trimSpace raw)).getD 1 []) ≤ 9007199254740991 →
        0 ≤ di.Size) ∧
      (0 ≤ goParseInt64 ((splitDfLine (trimSpace raw)).getD 2 []) →
        goParseInt64 ((splitDfLine (trimSpace raw)).getD 2 []) ≤ 9007199254740991 →
        0 ≤ di.Used) ∧
      (0 ≤ goParseInt64 ((splitDfLine (trimSpace raw)).getD 3 []) →
        goParseInt64 ((splitDfLine (trimSpace raw)).getD 3 []) ≤ 9007199254740991 →
        0 ≤ di.Available) := by
  intro raw di h
  obtain ⟨-, -, rfl⟩ := parseDfLine_some_inv h
  refine ⟨fun hz hb => ?_, fun hz hb => ?_, fun hz hb => ?_⟩ <;>
    · show 0 ≤ wrap64 (goParseInt64 _ * 1024)
      rw [wrap64_id (by omega) (by omega)]
      omega

/-- Witness for amended C8: the well-formed example row yields non-negative
Size, Used and Available. -/
theorem claim8_amended_nonneg_witness :
    0 ≤ ({ Filesystem := "/dev/sda1".data, Size := 1073741824, Used := 536870912,
           Available := 536870912, UsePercent := 50,
           MountPoint := "/".data } : DiskInfo).Size :=
  (claim8_amended_nonneg "/dev/sda1 1048576 524288 524288 50% /".data _
      (by decide)).1 (by decide) (by decide)

/-- C10: the parser strips at most one trailing `%` from the percent token:
appending one `%` to any token is always undone, a bare `50` and `50%` both
parse to usePercent 50, and `50%%` fails numeric parsing and yields 0. -/
theorem claim10_percent_strip :
    (∀ s : List Char, trimPctSuffix (s ++ ['%']) = s) ∧
    (parseDfOutputS
        "Filesystem 1K-blocks Used Available Use% Mounted on\n/dev/sda1 100 50 50 50 /").map
      DiskInfo.UsePercent = [50] ∧
    (parseDfOutputS
        "Filesystem 1K-blocks Used Available Use% Mounted on\n/dev/sda1 100 50 50 50% /").map
      DiskInfo.UsePercent = [50] ∧
    (parseDfOutputS
        "Filesystem 1K-blocks Used Available Use% Mounted on\n/dev/sda1 100 50 50 50%% /").map
      DiskInfo.UsePercent = [0] := by
  refine ⟨fun s => ?_, by decide, by decide, by decide⟩
  unfold trimPctSuffix
  rw [if_pos (List.getLast?_concat s)]
  exact List.dropLast_concat

/-- C9: every negative byte count falls through all unit thresholds and is
rendered as the bare `%d`-formatted integer with the `" B"` suffix; in
particular `formatSize (-1) = "-1 B"`. -/
theorem claim9_negative_bytes :
    (∀ n : Int, n < 0 → formatSize n = intDecimal n ++ " B".data) ∧
    formatSize (-1) = "-1 B".data := by
  refine ⟨fun n hn => ?_, by decide⟩
  unfold formatSize
  rw [if_neg (by omega), if_neg (by omega), if_neg (by omega), if_neg (by omega)]

/-- Witness for C9 at `-7`. -/
theorem claim9_negative_bytes_witness :
    formatSize (-7) = intDecimal (-7) ++ " B".data :=
  claim9_negative_bytes.1 (-7) (by decide)

set_option maxRecDepth 40000 in
/-- Counterexample to C3 as stated: at percent 410 the `float64` product
`410/100*30` rounds just below the exact value 123, so the code computes 122
used cells while `floor(410/100 * 30) = 123`. -/
theorem claim3_counterexample :
    usedCharsGo 410 = 122 ∧ ((410 * 30 / 100 : Nat) : Int) = 123 ∧
    usedCharsGo 410 ≠ ((410 * 30 / 100 : Nat) : Int) := by
  exact ⟨by decide, by decide, by decide⟩

set_option maxRecDepth 40000 in
/-- C3 (amended): for every percent in [0, 100] the bar computation yields
`usedCells = floor(p * 30 / 100)` and `usedCells + availableCells = 30`; at
percent 150 it yields 45 and -15 without crashing.  Outside these ranges the
`float64` rounding and the truncation toward zero may deviate from the exact
floor (for 410 and -5 see the counterexample and the last conjunct). -/
theorem claim3_amended_bar :
    (∀ n : Nat, n ≤ 100 →
      usedCharsGo (n : Int) = ((n * 30 / 100 : Nat) : Int) ∧
      usedCharsGo (n : Int) + availCharsGo (n : Int) = 30) ∧
    usedCharsGo 150 = 45 ∧ availCharsGo 150 = -15 ∧ usedCharsGo (-5) = -1 := by
  refine ⟨fun n hn => ⟨usedChars_ball n hn, ?_⟩, by decide, by decide, by decide⟩
  unfold availCharsGo
  omega

set_option maxRecDepth 40000 in
/-- Witness for amended C3 at percent 50. -/
theorem claim3_amended_bar_witness :
    usedCharsGo (50 : Int) = ((50 * 30 / 100 : Nat) : Int) ∧
    usedCharsGo (50 : Int) + availCharsGo (50 : Int) = 30 :=
  claim3_amended_bar.1 50 (by decide)

set_option maxRecDepth 100000 in
/-- C2: for every non-negative byte count the unit is the largest of
B/KB/MB/GB/TB whose power-of-1024 threshold is at most the count; KB/MB/GB/TB
values are rendered with exactly two decimal places, B values as a bare
integer with `" B"`; and the four cited concrete values hold. -/
theorem claim2_format_units :
    (∀ b : Int, 0 ≤ b →
      (1099511627776 ≤ b →
        ∃ v, formatSize b = v ++ " TB".data ∧ twoDecForm v) ∧
      (1073741824 ≤ b → b < 1099511627776 →
        ∃ v, formatSize b = v ++ " GB".data ∧ twoDecForm v) ∧
      (1048576 ≤ b → b < 1073741824 →
        ∃ v, formatSize b = v ++ " MB".data ∧ twoDecForm v) ∧
      (1024 ≤ b → b < 1048576 →
        ∃ v, formatSize b = v ++ " KB".data ∧ twoDecForm v) ∧
      (b < 1024 → formatSize b = natDigits b.toNat ++ " B".data)) ∧
    formatSize 0 = "0 B".data ∧ formatSize 1024 = "1.00 KB".data ∧
    formatSize 1048576 = "1.00 MB".data ∧
    formatSize 1099511627776 = "1.00 TB".data := by
  refine ⟨fun b hb => ⟨?_, ?_, ?_, ?_, ?_⟩, by decide, by decide, by decide, by decide⟩
  · intro h1
    refine ⟨fmtF2 (dDiv (dOfInt b) (dOfInt 1099511627776)), ?_, ?_⟩
    · unfold formatSize
      rw [if_pos h1]
    · rw [fmtF2_of_nonneg (dDiv_fst_nonneg (dOfInt_fst_nonneg hb) (by decide))]
      exact twoDec_fmtF2Core _ _
  · intro h1 h2
    refine ⟨fmtF2 (dDiv (dOfInt b) (dOfInt 1073741824)), ?_, ?_⟩
    · unfold formatSize
      rw [if_neg (by omega), if_pos h1]
    · rw [fmtF2_of_nonneg (dDiv_fst_nonneg (dOfInt_fst_nonneg hb) (by decide))]
      exact twoDec_fmtF2Core _ _
  · intro h1 h2
    refine ⟨fmtF2 (dDiv (dOfInt b) (dOfInt 1048576)), ?_, ?_⟩
    · unfold formatSize
      rw [if_neg (by omega), if_neg (by omega), if_pos h1]
    · rw [fmtF2_of_nonneg (dDiv_fst_nonneg (dOfInt_fst_nonneg hb) (by decide))]
      exact twoDec_fmtF2Core _ _
  · intro h1 h2
    refine ⟨fmtF2 (dDiv (dOfInt b) (dOfInt 1024)), ?_, ?_⟩
    · unfold formatSize
      rw [if_neg (by omega), if_neg (by omega), if_neg (by omega), if_pos h1]
    · rw [fmtF2_of_nonneg (dDiv_fst_nonneg (dOfInt_fst_nonneg hb) (by decide))]
      exact twoDec_fmtF2Core _ _
  · intro h2
    unfold formatSize
    rw [if_neg (by omega), if_neg (by omega), if_neg (by omega), if_neg (by omega)]
    unfold intDecimal
    rw [if_neg (by omega)]

set_option maxRecDepth 100000 in
/-- Witness for C2 at 5000 bytes (the KB range). -/
theorem claim2_format_units_witness :
    ∃ v, formatSize 5000 = v ++ " KB".data ∧ twoDecForm v :=
  (claim2_format_units.1 5000 (by decide)).2.2.2.1 (by decide) (by decide)

/-- Counterexample to C4 as stated: a `tmpfs` row passes the parser's prefix
filter and yields a record, but the display loop's own filter
(main.go:58) only admits filesystems starting with `/`, so no block is
rendered for it. -/
theorem claim4_counterexample :
    (parseDfOutputS
        "Filesystem 1K-blocks Used Available Use% Mounted on\ntmpfs 1024 512 512 50% /tmp").length = 1 ∧
    viewBlocks
        (parseDfOutputS
          "Filesystem 1K-blocks Used Available Use% Mounted on\ntmpfs 1024 512 512 50% /tmp") =
      some [] := by
  exact ⟨by decide, by decide⟩

theorem viewBlocks_cons_of_eligible {di : DiskInfo} {rest : List DiskInfo}
    (hel : displayEligible di = true) {b : List Char}
    (hbk : deviceInfoBlock di = some b) {bs : List (List Char)}
    (hrest : viewBlocks rest = some bs) :
    viewBlocks (di :: rest) = some (b :: bs) := by
  simp only [viewBlocks, hel, if_true, hbk, hrest]
  rfl

theorem viewBlocks_cons_of_not_eligible {di : DiskInfo} {rest : List DiskInfo}
    (hel : displayEligible di = false) :
    viewBlocks (di :: rest) = viewBlocks rest := by
  simp only [viewBlocks, hel, if_false, Bool.false_eq_true]

/-- C4 (amended): for a record with use-percent in [0, 100], the display
step renders exactly one block if and only if its filesystem starts with
`/` (the `"/dev"` alternative of the display filter is subsumed); the block
contains the filesystem label, the formatted size, used and available, the
use-percent, the mount point and the two-segment usage bar.  Records whose
filesystem starts with `tmpfs` or `devtmpfs` (hence not with `/`) render no
block. -/
theorem claim4_amended_display (di : DiskInfo) (h0 : 0 ≤ di.UsePercent)
    (h1 : di.UsePercent ≤ 100) :
    (startsWith "/".data di.Filesystem = true →
      ∃ b, viewBlocks [di] = some [b] ∧
        di.Filesystem <:+: b ∧
        formatSize di.Size <:+: b ∧
        formatSize di.Used <:+: b ∧
        formatSize di.Available <:+: b ∧
        intDecimal di.UsePercent <:+: b ∧
        di.MountPoint <:+: b ∧
        (List.replicate (usedCharsGo di.UsePercent).toNat '█' ++
          List.replicate (availCharsGo di.UsePercent).toNat '░') <:+: b) ∧
    (startsWith "/".data di.Filesystem = false → viewBlocks [di] = some []) := by
  have hb := usedChars_bounds h0 h1
  have hrep1 : goRepeat '█' (usedCharsGo di.UsePercent) =
      some (List.replicate (usedCharsGo di.UsePercent).toNat '█') := by
    unfold goRepeat
    rw [if_neg (not_lt.mpr hb.1)]
  have hrep2 : goRepeat '░' (30 - usedCharsGo di.UsePercent) =
      some (List.replicate (30 - usedCharsGo di.UsePercent).toNat '░') := by
    unfold goRepeat
    rw [if_neg (not_lt.mpr (by omega))]
  have hblock : deviceInfoBlock di =
      some (blockParts di (List.replicate (usedCharsGo di.UsePercent).toNat '█')
        (List.replicate (30 - usedCharsGo di.UsePercent).toNat '░')).flatten := by
    unfold deviceInfoBlock
    rw [hrep1, hrep2]
  constructor
  · intro hsw
    have hel : displayEligible di = true := by
      rw [displayEligible_eq]
      exact hsw
    refine ⟨(blockParts di (List.replicate (usedCharsGo di.UsePercent).toNat '█')
      (List.replicate (30 - usedCharsGo di.UsePercent).toNat '░')).flatten,
      viewBlocks_cons_of_eligible hel hblock rfl, ?_, ?_, ?_, ?_, ?_, ?_, ?_⟩
    · exact List.infix_of_mem_flatten (by simp [blockParts])
    · exact List.infix_of_mem_flatten (by simp [blockParts])
    · exact List.infix_of_mem_flatten (by simp [blockParts])
    · exact List.infix_of_mem_flatten (by simp [blockParts])
    · exact List.infix_of_mem_flatten (by simp [blockParts])
    · exact List.infix_of_mem_flatten (by simp [blockParts])
    · show (List.replicate (usedCharsGo di.UsePercent).toNat '█' ++
        List.replicate (30 - usedCharsGo di.UsePercent).toNat '░') <:+: _
      exact List.infix_of_mem_flatten (by simp [blockParts])
  · intro hsw
    have hel : displayEligible di = false := by
      rw [displayEligible_eq]
      exact hsw
    exact (viewBlocks_cons_of_not_eligible hel).trans rfl

set_option maxRecDepth 100000 in
/-- Witness for amended C4: the `/dev/sda1` example record renders exactly
one block containing all its fields. -/
theorem claim4_amended_display_witness :
    ∃ b, viewBlocks [{ Filesystem := "/dev/sda1".data, Size := 1073741824,
                       Used := 536870912, Available := 536870912, UsePercent := 50,
                       MountPoint := "/".data }] = some [b] ∧
      "/dev/sda1".data <:+: b ∧
      formatSize 1073741824 <:+: b ∧
      formatSize 536870912 <:+: b ∧
      formatSize 536870912 <:+: b ∧
      intDecimal 50 <:+: b ∧
      "/".data <:+: b ∧
      (List.replicate (usedCharsGo 50).toNat '█' ++
        List.replicate (availCharsGo 50).toNat '░') <:+: b :=
  (claim4_amended_display _ (by decide) (by decide)).1 (by decide)
